import Mathlib

/-!
# Verification of the trial-dashboard reconciliation/KPI pipeline

Shallow embedding of `src/trial_dashboard.py`: the column resolver (`col`),
the schema validator, the temporal normalizer (`pd.to_datetime(_, errors="coerce")`),
the asset/forms reconciliation joins and the KPI derivations, together with
theorems settling the specification claims.

Conventions of the embedding:
* a pandas cell is a `Cell`: a string, a parsed calendar day (`Int`, days in the
  proleptic Gregorian calendar counted from 0001-01-01), or `missing` (NaN/NaT);
* a data frame is a `Table`: a list of column names plus rows of cells;
* day differences (`.dt.days`) are `Int` subtraction on parsed days;
* rates computed with `/` in Python are rationals (`ℚ`); division by zero,
  which the claims never exercise, is the `ℚ` convention `x / 0 = 0`.
-/

namespace TrialDashboard

/-- A single pandas cell: a string value, a parsed timestamp (calendar day
number), or the missing marker (NaN/NaT). -/
inductive Cell where
  | str (s : String)
  | date (d : Int)
  | missing
deriving DecidableEq

/-- A header-qualified table as produced by the loader: ordered column names
and rows of cells (row cells are positional, matching `cols`). -/
structure Table where
  cols : List String
  rows : List (List Cell)
deriving DecidableEq

/-- The parsed day number of a cell, if it holds one. -/
def cellDate : Cell → Option Int
  | Cell.date d => some d
  | _ => none

/-! ## String helpers (Python `in` on strings, `str.lower`) -/

/-- Boolean list-prefix test (model of Python string prefix comparison). -/
def listPre : List Char → List Char → Bool
  | [], _ => true
  | _ :: _, [] => false
  | a :: as, b :: bs => a = b && listPre as bs

/-- Boolean substring test on character lists: model of Python `needle in hay`. -/
def listContains (needle : List Char) : List Char → Bool
  | [] => listPre needle []
  | c :: rest => listPre needle (c :: rest) || listContains needle rest

/-- Model of Python `needle in hay` for strings. -/
def strContains (needle hay : String) : Bool :=
  listContains needle.data hay.data

/-- Model of Python `str.lower` (character-wise lower-casing). -/
def lowerStr (s : String) : String :=
  String.mk (s.data.map Char.toLower)

/-! ## Column resolver (`normalize` / `col`, source lines 22-38) -/

/-- One character of `re.sub(r'[^a-z0-9]', ' ', s)`: keep lower-case letters
and digits, replace anything else by a space. -/
def normChar (c : Char) : Char :=
  if ('a' ≤ c ∧ c ≤ 'z') ∨ ('0' ≤ c ∧ c ≤ '9') then c else ' '

/-- Split a character list on spaces (the words of the string). -/
def wordsOf : List Char → List (List Char)
  | [] => [[]]
  | c :: rest =>
    let ws := wordsOf rest
    if c = ' ' then [] :: ws
    else (c :: ws.headD []) :: ws.tail

/-- Join words with single spaces. -/
def joinWords : List (List Char) → List Char
  | [] => []
  | [w] => w
  | w :: ws => w ++ ' ' :: joinWords ws

/-- Source `normalize`: lower-case, replace every non-alphanumeric character
by a space, then collapse runs of spaces and trim. -/
def normalize (s : String) : String :=
  let cleaned := s.data.map (fun c => normChar c.toLower)
  String.mk (joinWords ((wordsOf cleaned).filter (fun w => w ≠ [])))

/-- Insert into an association list the way a Python dict assignment does:
an existing key keeps its position but gets the new value; a new key is
appended at the end. -/
def upsert : List (String × String) → String → String → List (String × String)
  | [], k, v => [(k, v)]
  | (k0, v0) :: rest, k, v =>
    if k0 = k then (k, v) :: rest else (k0, v0) :: upsert rest k v

/-- Source `norm_map = {normalize(c): c for c in df.columns}`: a dict built
left to right, so a later column overwrites an earlier column that shares
its normalized name. -/
def normMap (cols : List String) : List (String × String) :=
  cols.foldl (fun m c => upsert m (normalize c) c) []

/-- Dict lookup `norm_map[k]` (as an `Option`). -/
def lookupNm (m : List (String × String)) (k : String) : Option String :=
  (m.find? (fun p => decide (p.1 = k))).map (fun p => p.2)

/-- Pass 1 of `col`: for each candidate in order, the dict entry whose key
equals the normalized candidate. -/
def exactPass (m : List (String × String)) : List String → Option String
  | [] => none
  | cand :: rest =>
    match lookupNm m (normalize cand) with
    | some v => some v
    | none => exactPass m rest

/-- Pass 2 of `col`: for each candidate in order, the first dict item whose
key contains the normalized candidate as a substring. -/
def subPass (m : List (String × String)) : List String → Option String
  | [] => none
  | cand :: rest =>
    match m.find? (fun p => listContains (normalize cand).data p.1.data) with
    | some p => some p.2
    | none => subPass m rest

/-- Source `col(df, *cands)`: exact pass over the normalized-name dict, then
substring pass, else unresolved. -/
def col (cols : List String) (cands : List String) : Option String :=
  match exactPass (normMap cols) cands with
  | some v => some v
  | none => subPass (normMap cols) cands

/-! ### Resolver following the spec's words (for comparison with `col`) -/

/-- Follows the spec's words, for comparison with the source resolver:
pass 1 returns, for each candidate in order, the FIRST table column whose
normalized name equals the normalized candidate. -/
def specExact (cols : List String) : List String → Option String
  | [] => none
  | cand :: rest =>
    match cols.find? (fun c => decide (normalize c = normalize cand)) with
    | some c => some c
    | none => specExact cols rest

/-- Follows the spec's words: pass 2 returns, for each candidate in order,
the FIRST table column whose normalized name contains the normalized
candidate as a substring. -/
def specSub (cols : List String) : List String → Option String
  | [] => none
  | cand :: rest =>
    match cols.find? (fun c => listContains (normalize cand).data (normalize c).data) with
    | some c => some c
    | none => specSub cols rest

/-- Follows the spec's words: exact pass first, substring pass only if no
candidate has an exact match. -/
def specCol (cols : List String) (cands : List String) : Option String :=
  match specExact cols cands with
  | some c => some c
  | none => specSub cols cands

/-! ## Temporal normalizer (source lines 106-114)

The source calls `pd.to_datetime(df[c], errors="coerce")` on each designated
column. The library's flexible parsing is modelled on its ISO `YYYY-MM-DD`
fragment: a cell parses iff it is a valid ISO calendar date; every other
string coerces to `missing`, exactly the `errors="coerce"` semantics. -/

/-- ASCII digit test. -/
def isDig (c : Char) : Bool := '0' ≤ c && c ≤ '9'

/-- Digit value of an ASCII digit. -/
def digVal (c : Char) : Nat := c.toNat - '0'.toNat

/-- Gregorian leap-year test. -/
def isLeap (y : Nat) : Bool := y % 4 = 0 && (y % 100 ≠ 0 || y % 400 = 0)

/-- Days in a month of the Gregorian calendar. -/
def daysInMonth (y m : Nat) : Nat :=
  if m = 2 then (if isLeap y then 29 else 28)
  else if m = 4 ∨ m = 6 ∨ m = 9 ∨ m = 11 then 30
  else 31

/-- Day number of a valid civil date (days since 0001-01-01 plus a fixed
offset; only differences of day numbers are ever used). Requires `1 ≤ y`,
`1 ≤ m ≤ 12`, `1 ≤ d`. -/
def daysFromCivil (y m d : Nat) : Nat :=
  let y0 := y - (if m ≤ 2 then 1 else 0)
  let era := y0 / 400
  let yoe := y0 % 400
  let mp := (m + 9) % 12
  let doy := (153 * mp + 2) / 5 + (d - 1)
  let doe := yoe * 365 + yoe / 4 - yoe / 100 + doy
  era * 146097 + doe

/-- Model of `pd.to_datetime(cell, errors="coerce")` on one string: a valid
ISO `YYYY-MM-DD` date yields its day number, anything else yields `none`. -/
def parseDate (s : String) : Option Int :=
  match s.data with
  | [y1, y2, y3, y4, h1, m1, m2, h2, d1, d2] =>
    if isDig y1 && isDig y2 && isDig y3 && isDig y4 && h1 = '-' &&
        isDig m1 && isDig m2 && h2 = '-' && isDig d1 && isDig d2 then
      let y := ((digVal y1 * 10 + digVal y2) * 10 + digVal y3) * 10 + digVal y4
      let m := digVal m1 * 10 + digVal m2
      let d := digVal d1 * 10 + digVal d2
      if 1 ≤ y ∧ 1 ≤ m ∧ m ≤ 12 ∧ 1 ≤ d ∧ d ≤ daysInMonth y m then
        some (Int.ofNat (daysFromCivil y m d))
      else none
    else none
  | _ => none

/-- Per-cell coercion: a string parses or becomes `missing`; an already
parsed date is kept; `missing` stays `missing`. Never fails. -/
def coerceCell : Cell → Cell
  | Cell.str s =>
    match parseDate s with
    | some d => Cell.date d
    | none => Cell.missing
  | Cell.date d => Cell.date d
  | Cell.missing => Cell.missing

/-- Coerce the cells of the column named `c` in one row (positions whose
column name is `c`). -/
def coerceRow : List String → String → List Cell → List Cell
  | _, _, [] => []
  | [], _, r => r
  | c0 :: cs, c, x :: xs =>
    (if c0 = c then coerceCell x else x) :: coerceRow cs c xs

/-- One iteration of the source loop
`for c in cols: if c in df.columns: df[c] = pd.to_datetime(df[c], errors="coerce")`:
a `None` entry (an unresolved optional column) and a name that is not a
column are skipped. -/
def coerceStep (acc : Table) (oc : Option String) : Table :=
  match oc with
  | none => acc
  | some c =>
    if c ∈ acc.cols then
      { cols := acc.cols, rows := acc.rows.map (coerceRow acc.cols c) }
    else acc

/-- The whole designated-column coercion loop over one table. -/
def coerceTable (t : Table) (dcols : List (Option String)) : Table :=
  dcols.foldl coerceStep t

/-- Whether position `j` belongs to a designated date column. -/
def isDateCol (cols : List String) (dcols : List (Option String)) (j : Nat) : Bool :=
  match cols[j]? with
  | some c => decide (some c ∈ dcols)
  | none => false

/-! ## Typed records (post-coercion views of the three tables) -/

/-- A schedule (Sites report) row with the columns the pipeline reads. -/
structure SRow where
  site : Cell
  subj : Cell
  visit : Cell
  assess : Cell
  assessId : Cell
  schedDate : Cell
  statusDate : Cell
  taskDates : List Cell
  actRaised : Cell
  actResolved : Cell
deriving DecidableEq

/-- An asset-report row with the columns the pipeline reads. -/
structure ARow where
  site : Cell
  subj : Cell
  visit : Cell
  assess : Cell
  procDate : Cell
  upload : Cell
deriving DecidableEq

/-- A forms-report row with the columns the merge brings in. -/
structure FRow where
  spid : Cell
  submitted : Cell
  review : Cell
deriving DecidableEq

/-- A schedule row after the asset merge and
`sites_df["max_upload_delay"].fillna(0).astype(int)` (source lines 127-133). -/
structure R1 extends SRow where
  firstUpload : Option Int
  maxUploadDelay : Int
deriving DecidableEq

/-- A reconciled row after the forms merge (source lines 136-140). -/
structure R2 extends R1 where
  formSubmitted : Cell
  review : Cell
deriving DecidableEq

/-! ## Cross-report reconciler -/

/-- Skip-NaN fold (pandas aggregation semantics: `min`/`max` ignore NaN and
give NaN on an all-NaN group). -/
def optFold (f : Int → Int → Int) (l : List (Option Int)) : Option Int :=
  l.foldl
    (fun acc x =>
      match acc, x with
      | none, y => y
      | some a, none => some a
      | some a, some b => some (f a b))
    none

/-- `asset_df["upload_delay"] = (asset_df[a_upload] - asset_df[a_date]).dt.days`:
defined only when both endpoints are present. -/
def uploadDelay (a : ARow) : Option Int :=
  (cellDate a.upload).bind (fun u => (cellDate a.procDate).map (fun p => u - p))

/-- The 4-tuple groupby key of an asset row; `none` when any component is
missing (pandas `groupby` drops such rows). -/
def akey (a : ARow) : Option (Cell × Cell × Cell × Cell) :=
  if a.site = Cell.missing ∨ a.subj = Cell.missing ∨ a.visit = Cell.missing ∨
      a.assess = Cell.missing then none
  else some (a.site, a.subj, a.visit, a.assess)

/-- First-occurrence deduplication (the distinct keys of a groupby). -/
def firstDedup {α : Type} [DecidableEq α] (l : List α) : List α :=
  l.foldl (fun acc a => if a ∈ acc then acc else acc ++ [a]) []

/-- One aggregated asset group: `first_upload = min(upload)` and
`max_upload_delay = max(upload_delay)` over the group (source lines 119-126). -/
structure AggRow where
  key : Cell × Cell × Cell × Cell
  firstUpload : Option Int
  maxUploadDelay : Option Int
deriving DecidableEq

/-- Source `asset_agg`: group the asset rows by the 4-tuple
(site, subject, visit, assessment name) and aggregate each group. -/
def assetAgg (arows : List ARow) : List AggRow :=
  (firstDedup (arows.filterMap akey)).map
    (fun k =>
      let grp := arows.filter (fun a => decide (akey a = some k))
      { key := k
        firstUpload := optFold min (grp.map (fun a => cellDate a.upload))
        maxUploadDelay := optFold max (grp.map uploadDelay) })

/-- The asset left-merge for one schedule row (source lines 127-133): all
matching aggregated groups, or the defaulted row when none matches; the
subsequent `fillna(0).astype(int)` turns a missing `max_upload_delay`
into `0`. -/
def joinAssetsOne (agg : List AggRow) (s : SRow) : List R1 :=
  match agg.filter (fun g => decide (g.key = (s.site, s.subj, s.visit, s.assess))) with
  | [] => [{ toSRow := s, firstUpload := none, maxUploadDelay := 0 }]
  | ms => ms.map (fun g =>
      { toSRow := s, firstUpload := g.firstUpload, maxUploadDelay := g.maxUploadDelay.getD 0 })

/-- The full asset left-merge onto the schedule table. -/
def joinAssets (sched : List SRow) (agg : List AggRow) : List R1 :=
  sched.flatMap (joinAssetsOne agg)

/-- The forms left-merge for one reconciled row (source lines 136-140): all
forms rows whose assessment id equals the row's id (pandas matches NaN keys
to NaN keys), or missing form data when none matches. -/
def joinFormsOne (frows : List FRow) (r : R1) : List R2 :=
  match frows.filter (fun f => decide (f.spid = r.assessId)) with
  | [] => [{ toR1 := r, formSubmitted := Cell.missing, review := Cell.missing }]
  | ms => ms.map (fun f => { toR1 := r, formSubmitted := f.submitted, review := f.review })

/-! ## KPI derivation engine (source lines 142-229) -/

/-- `task_delay` (source lines 160-162): max over the task-date columns of
(task date - scheduled date) in days; NaN terms are skipped, an all-NaN row
yields NaN. -/
def taskDelay (r : R2) : Option Int :=
  optFold max
    (r.taskDates.map (fun t =>
      (cellDate t).bind (fun td => (cellDate r.schedDate).map (fun sd => td - sd))))

/-- `form_delay = (form_submitted - first_upload).dt.days` (source line 169). -/
def formDelay (r : R2) : Option Int :=
  (cellDate r.formSubmitted).bind (fun fs => r.firstUpload.map (fun fu => fs - fu))

/-- An open action: action raised present and action resolved absent
(source line 166 and the `action_rate` aggregation). -/
def openAction (r : R2) : Bool :=
  decide (r.actRaised ≠ Cell.missing) && decide (r.actResolved = Cell.missing)

/-- The rows of one site group (`sites_df.groupby(s_site)`). -/
def siteGroup (rows : List R2) (s : Cell) : List R2 :=
  rows.filter (fun r => decide (r.site = s))

/-- `late_assets` (source line 157): distinct assessment ids among rows with
`max_upload_delay > 5` (`nunique` drops NaN ids). -/
def lateAssets (rows : List R2) : Nat :=
  (firstDedup
    ((rows.filter (fun r => decide (5 < r.maxUploadDelay))).filterMap
      (fun r => if r.assessId = Cell.missing then none else some r.assessId))).length

/-! ## Visit-window adherence (source lines 186-207) -/

/-- The fixed visit-name → offset table (source lines 188-197). -/
def offsets : List (String × Int) :=
  [("Baseline", 0), ("Week 4", 28), ("Week 12", 84), ("Month 6", 182),
   ("Month 12", 364), ("Month 18", 546), ("Month 24", 728), ("Month 30", 910)]

/-- `tolerance = {k: (3 if "Week" in k else 14) for k in offsets}`
(source line 198). -/
def toleranceTbl : List (String × Int) :=
  offsets.map (fun p => (p.1, if strContains "Week" p.1 then 3 else 14))

/-- `offsets.get(assess, 0)` on a cell key (a non-string key is absent). -/
def offGet (c : Cell) : Int :=
  match c with
  | Cell.str a => (((offsets.find? (fun p => decide (p.1 = a))).map (fun p => p.2)).getD 0)
  | _ => 0

/-- `tolerance.get(assess, 0)` on a cell key. -/
def tolGet (c : Cell) : Int :=
  match c with
  | Cell.str a => (((toleranceTbl.find? (fun p => decide (p.1 = a))).map (fun p => p.2)).getD 0)
  | _ => 0

/-- The per-subject baseline rows (source line 200): site, subject and
scheduled date of every reconciled row whose assessment name is the string
"Baseline". -/
def baselineRows (rows : List R2) : List (Cell × Cell × Cell) :=
  (rows.filter (fun r => decide (r.assess = Cell.str "Baseline"))).map
    (fun r => (r.site, r.subj, r.schedDate))

/-- A reconciled row augmented with its subject's baseline date. -/
structure VRow extends R2 where
  baselineDate : Cell
deriving DecidableEq

/-- The baseline left-merge for one row (source line 201): all baseline rows
of the same (site, subject), or a missing baseline date when none exists. -/
def vwJoinOne (base : List (Cell × Cell × Cell)) (r : R2) : List VRow :=
  match base.filter (fun b => decide (b.1 = r.site) && decide (b.2.1 = r.subj)) with
  | [] => [{ toR2 := r, baselineDate := Cell.missing }]
  | ms => ms.map (fun b => { toR2 := r, baselineDate := b.2.2 })

/-- Source `vw`: every reconciled row merged with its subject's baseline. -/
def vw (rows : List R2) : List VRow :=
  rows.flatMap (vwJoinOne (baselineRows rows))

/-- `days_since_base = (scheduled date - baseline_date).dt.days`
(source line 202). -/
def daysSinceBase (v : VRow) : Option Int :=
  (cellDate v.schedDate).bind (fun d => (cellDate v.baselineDate).map (fun b => d - b))

/-- `within_window` (source line 203):
`abs(days_since_base - offsets.get(assess, 0)) <= tolerance.get(assess, 0)`;
an undefined `days_since_base` compares false. -/
def withinWindow (v : VRow) : Bool :=
  match daysSinceBase v with
  | some d => decide (|d - offGet v.assess| ≤ tolGet v.assess)
  | none => false

/-- The distinct (non-missing) assessment names of the vw table
(`groupby(s_assess)` drops a NaN key). -/
def assessKeys (vws : List VRow) : List Cell :=
  firstDedup ((vws.map (fun v => v.assess)).filter (fun a => decide (a ≠ Cell.missing)))

/-- Source `adherence` (lines 204-207): per assessment name, the group size
and the number of within-window rows. -/
def adherence (rows : List R2) : List (Cell × Nat × Nat) :=
  (assessKeys (vw rows)).map
    (fun a =>
      (a, (vw rows).countP (fun v => decide (v.assess = a)),
        (vw rows).countP (fun v => decide (v.assess = a) && withinWindow v)))

/-! ## Missing-data summary and data-quality index (source lines 213-229) -/

/-- The (site, subject, visit) groupby key of a reconciled row; `none` when
any component is missing (pandas drops such rows from the groupby). -/
def mvKey (r : R2) : Option (Cell × Cell × Cell) :=
  if r.site = Cell.missing ∨ r.subj = Cell.missing ∨ r.visit = Cell.missing then none
  else some (r.site, r.subj, r.visit)

/-- Source `mv` (line 214): the (site, subject, visit) groups with their row
counts. -/
def mvGroups (rows : List R2) : List ((Cell × Cell × Cell) × Nat) :=
  (firstDedup (rows.filterMap mvKey)).map
    (fun k => (k, rows.countP (fun r => decide (mvKey r = some k))))

/-- Source `missing_data` (line 215): the groups with fewer than 6 rows. -/
def missingData (rows : List R2) : List ((Cell × Cell × Cell) × Nat) :=
  (mvGroups rows).filter (fun p => decide (p.2 < 6))

/-- Source `site_counts` (line 175): distinct assessment ids per site
(`nunique` drops NaN). -/
def siteCounts (rows : List R2) (s : Cell) : Nat :=
  (firstDedup
    ((siteGroup rows s).filterMap
      (fun r => if r.assessId = Cell.missing then none else some r.assessId))).length

/-- The number of below-expected (site, subject, visit) groups at a site
(`missing_data.groupby(s_site).size()`, line 225). -/
def missVisitCount (rows : List R2) (s : Cell) : Nat :=
  (missingData rows).countP (fun p => decide (p.1.1 = s))

/-- Follows the spec's words, for comparison: `missing_visit_rate` as the
fraction of the site's (site, subject, visit) groups whose row count is
below the expected count. -/
def specMissingVisitRate (rows : List R2) (s : Cell) : ℚ :=
  ((missVisitCount rows s : ℚ)) / (((mvGroups rows).countP (fun p => decide (p.1.1 = s)) : ℚ))

/-! ## Column identification and schema validation (source lines 63-104) -/

/-- The resolved concrete column names of the three reports
(source lines 63-89). -/
structure Resolved where
  sSite : Option String
  sSubj : Option String
  sVisit : Option String
  sAssess : Option String
  sId : Option String
  sDate : Option String
  sStatus : Option String
  sStatusDt : Option String
  taskCols : List String
  actRaised : Option String
  actResolved : Option String
  aSite : Option String
  aSubj : Option String
  aVisit : Option String
  aAssess : Option String
  aDate : Option String
  aUpload : Option String
  fSpid : Option String
  fCreated : Option String
  fSubmitted : Option String
  revComment : Option String
deriving DecidableEq

/-- Source lines 63-89: every `col(...)` call of the script, plus the task
column scan (`"task " in c.lower() and "date" in c.lower()`). -/
def resolveAll (sites assets forms : Table) : Resolved :=
  { sSite := col sites.cols ["Site Name"]
    sSubj := col sites.cols ["Subject Number"]
    sVisit := col sites.cols ["Visit Name", "Study Event"]
    sAssess := col sites.cols ["Assessment Name", "Study Procedure"]
    sId := col sites.cols ["Assessment ID"]
    sDate := col sites.cols ["Assessment Date", "Study Procedure Date"]
    sStatus := col sites.cols ["Assessment Status"]
    sStatusDt := col sites.cols ["Assessment Status Date"]
    taskCols := sites.cols.filter
      (fun c => strContains "task " (lowerStr c) && strContains "date" (lowerStr c))
    actRaised := col sites.cols ["Action Required - Date Raised"]
    actResolved := col sites.cols ["Action Resolved Date"]
    aSite := col assets.cols ["Library/Site Name", "Site Name"]
    aSubj := col assets.cols ["Subject Number"]
    aVisit := col assets.cols ["Study Event", "Visit Name"]
    aAssess := col assets.cols ["Study Procedure", "Assessment Name"]
    aDate := col assets.cols ["Study Procedure Date", "Assessment Date"]
    aUpload := col assets.cols ["Upload Date"]
    fSpid := col forms.cols ["Study Procedure ID", "Assessment ID"]
    fCreated := col forms.cols ["Date Created", "Form Created Date"]
    fSubmitted := col forms.cols ["Submitted Date", "Form Submitted Date"]
    revComment := col forms.cols ["Review Comment", "ReviewComment"] }

/-- The `required` dict of source lines 92-96. -/
def requiredOf (R : Resolved) : List (String × List (Option String)) :=
  [("Sites", [R.sSite, R.sSubj, R.sVisit, R.sAssess, R.sDate]),
   ("Assets", [R.aSite, R.aSubj, R.aVisit, R.aAssess, R.aDate, R.aUpload]),
   ("Forms", [R.fSpid, R.fSubmitted])]

/-- The `errs` loop of source lines 97-101: per table, the sub-list of
unresolved (`None`) required entries, kept only when non-empty. Note the
reported list holds the `None` placeholders themselves, not field names. -/
def errsOf (R : Resolved) : List (String × List (Option String)) :=
  (requiredOf R).filterMap
    (fun p =>
      let m := p.2.filter (fun o => o.isNone)
      if m = [] then none else some (p.1, m))

/-- Follows the spec's words, for comparison: the validation report as a
list of (table, unresolved canonical-field NAMES) pairs, naming every
unresolved field per table. -/
def specReport (sites assets forms : Table) : List (String × List String) :=
  let R := resolveAll sites assets forms
  let fields : List (String × List (String × Option String)) :=
    [("Sites",
      [("Site Name", R.sSite), ("Subject Number", R.sSubj), ("Visit Name", R.sVisit),
       ("Assessment Name", R.sAssess), ("Assessment Date", R.sDate)]),
     ("Assets",
      [("Library/Site Name", R.aSite), ("Subject Number", R.aSubj), ("Study Event", R.aVisit),
       ("Study Procedure", R.aAssess), ("Study Procedure Date", R.aDate), ("Upload Date", R.aUpload)]),
     ("Forms", [("Study Procedure ID", R.fSpid), ("Submitted Date", R.fSubmitted)])]
  fields.filterMap
    (fun p =>
      let m := (p.2.filter (fun q => q.2.isNone)).map (fun q => q.1)
      if m = [] then none else some (p.1, m))

/-! ## Pipeline assembly -/

/-- How a run can fail: the consolidated schema report (source line 103,
`st.stop`); a raised pandas `KeyError` from indexing with an unresolved
(`None`) column name; the `AttributeError` raised while the arguments of
the `site_flags` aggregation are evaluated (line 176); or the `ValueError`
pandas raises when a nameless Series is joined (line 226). -/
inductive PipeErr where
  | schema (report : List (String × List (Option String)))
  | keyError
  | attrError
  | valueError
deriving DecidableEq

/-- The `ok` payload of an `Except`, if any. -/
def getOk {α : Type} : Except PipeErr α → Option α
  | Except.ok a => some a
  | Except.error _ => none

/-- The error of an `Except`, if any. -/
def getErr {α : Type} : Except PipeErr α → Option PipeErr
  | Except.ok _ => none
  | Except.error e => some e

/-- The cell of a row under a concrete column name. -/
def getCellN (cols : List String) (row : List Cell) (c : String) : Cell :=
  match cols.findIdx? (fun c0 => decide (c0 = c)) with
  | some j => row.getD j Cell.missing
  | none => Cell.missing

/-- The cell of a row under a resolved column name (`none` never occurs for
the uses guarded by validation or `keyError`). -/
def getCellO (cols : List String) (row : List Cell) (oc : Option String) : Cell :=
  match oc with
  | some c => getCellN cols row c
  | none => Cell.missing

/-- The designated date columns of the Sites report (source line 108). -/
def sitesDateCols (R : Resolved) : List (Option String) :=
  [R.sDate, R.sStatusDt, R.actRaised, R.actResolved] ++ R.taskCols.map some

/-- The designated date columns of the Asset report (source line 109). -/
def assetsDateCols (R : Resolved) : List (Option String) :=
  [R.aDate, R.aUpload]

/-- The designated date columns of the Forms report (source line 110). -/
def formsDateCols (R : Resolved) : List (Option String) :=
  [R.fCreated, R.fSubmitted]

/-- Read one coerced Sites row into a typed schedule record. -/
def mkSRow (R : Resolved) (cols : List String) (row : List Cell) : SRow :=
  { site := getCellO cols row R.sSite
    subj := getCellO cols row R.sSubj
    visit := getCellO cols row R.sVisit
    assess := getCellO cols row R.sAssess
    assessId := getCellO cols row R.sId
    schedDate := getCellO cols row R.sDate
    statusDate := getCellO cols row R.sStatusDt
    taskDates := R.taskCols.map (fun c => getCellN cols row c)
    actRaised := getCellO cols row R.actRaised
    actResolved := getCellO cols row R.actResolved }

/-- Read one coerced Asset row into a typed asset record. -/
def mkARow (R : Resolved) (cols : List String) (row : List Cell) : ARow :=
  { site := getCellO cols row R.aSite
    subj := getCellO cols row R.aSubj
    visit := getCellO cols row R.aVisit
    assess := getCellO cols row R.aAssess
    procDate := getCellO cols row R.aDate
    upload := getCellO cols row R.aUpload }

/-- Read one coerced Forms row into a typed forms record. -/
def mkFRow (cols : List String) (sc uc rc : String) (row : List Cell) : FRow :=
  { spid := getCellN cols row sc
    submitted := getCellN cols row uc
    review := getCellN cols row rc }

/-- The pipeline from the three header-qualified tables to the reconciled
records: resolution, validation (a single consolidated stop, source lines
97-104), date coercion, the asset aggregation/merge and the forms merge.
Indexing by an unresolved column name — `forms_df[[...None...]]` in the
forms merge (line 137) or the unconditional uses of `s_id`, `s_status`,
`s_status_dt`, `act_raised`, `act_resolved` (lines 139-182) — is a pandas
`KeyError`, modelled as `PipeErr.keyError`. -/
def runPipeline (sites assets forms : Table) : Except PipeErr (List R2) :=
  let R := resolveAll sites assets forms
  let errs := errsOf R
  if errs = [] then
    match R.sId, R.sStatus, R.sStatusDt, R.actRaised, R.actResolved with
    | some _, some _, some _, some _, some _ =>
      match R.fSpid, R.fSubmitted, R.revComment with
      | some sc, some uc, some rc =>
        let sitesC := coerceTable sites (sitesDateCols R)
        let assetsC := coerceTable assets (assetsDateCols R)
        let formsC := coerceTable forms (formsDateCols R)
        let sched := sitesC.rows.map (mkSRow R sitesC.cols)
        let arows := assetsC.rows.map (mkARow R assetsC.cols)
        let frows := formsC.rows.map (mkFRow formsC.cols sc uc rc)
        Except.ok ((joinAssets sched (assetAgg arows)).flatMap (joinFormsOne frows))
      | _, _, _ => Except.error PipeErr.keyError
    | _, _, _, _, _ => Except.error PipeErr.keyError
  else Except.error (PipeErr.schema errs)

/-! ## The metric stages that raise (source lines 174-184 and 222-229)

Both statements come after the reconciliation and neither ever completes:
the `site_flags` aggregation raises `AttributeError` while its keyword
arguments are evaluated, and the data-quality join raises `ValueError`
(besides being unreachable once line 176 has raised). -/

/-- The method table of a Python tuple (the attributes a tuple object
exposes that an expression could look up). -/
def tupleAttrs : List String := ["count", "index"]

/-- Python attribute lookup on a tuple object: a name outside the method
table raises `AttributeError`. -/
def tupleGetAttr (a : String) : Except PipeErr Unit :=
  if a ∈ tupleAttrs then Except.ok () else Except.error PipeErr.attrError

/-- Source line 176, the statement
`site_flags = sites_df.groupby(s_site).agg(...)`. Its fourth keyword
argument (lines 180-181) is written
`action_rate=(act_raised, lambda x: x.notna() & ...isna()).sum()/len(x)`:
the closing parenthesis after `.isna()` ends the PAIR, so the expression
looks up the attribute `sum` of a tuple. Python evaluates keyword arguments
before calling `.agg`, so the statement raises `AttributeError` on every
run that reaches it: no per-category late rate, no `site_flags` frame and
no `risk_score` (line 183 reads the never-bound name `site_flags`) is ever
produced. The success payload is `Unit` because the lookup provably fails
before any aggregation could run. -/
def siteFlagsAgg : Except PipeErr Unit :=
  tupleGetAttr "sum"

/-- A pandas Series as the data-quality stage handles one: its name and its
per-site rational values. -/
structure NamedSeries where
  name : Option String
  val : Cell → ℚ

/-- Series division (the `/` of source line 225): pandas keeps the name
only when the two operands' names are equal and drops it to `None`
otherwise. -/
def seriesDiv (a b : NamedSeries) : NamedSeries :=
  { name := if a.name = b.name then a.name else none
    val := fun s => a.val s / b.val s }

/-- `DataFrame.join` with a Series argument (source line 226): pandas
raises `ValueError` ("Other Series must have a name") when the Series'
name is `None`. -/
def joinSeries (s : NamedSeries) : Except PipeErr NamedSeries :=
  match s.name with
  | some _ => Except.ok s
  | none => Except.error PipeErr.valueError

/-- Source line 175 (this line executes):
`site_counts = sites_df.groupby(s_site)[s_id].nunique().rename("total_assessments")`. -/
def siteCountsSeries (rows : List R2) : NamedSeries :=
  { name := some "total_assessments", val := fun s => (siteCounts rows s : ℚ) }

/-- The left operand of source line 225's division: the below-expected
group counts, renamed "miss_visit_count". -/
def missVisitCountSeries (rows : List R2) : NamedSeries :=
  { name := some "miss_visit_count", val := fun s => (missVisitCount rows s : ℚ) }

/-- Source line 225: dividing the renamed counts by `site_counts` drops the
Series name, because "miss_visit_count" and "total_assessments" differ. -/
def missVisitSeries (rows : List R2) : NamedSeries :=
  seriesDiv (missVisitCountSeries rows) (siteCountsSeries rows)

/-- Source line 226, `dq = dq.join(miss_visit_rate, on=s_site).fillna(0)`:
joining the nameless Series raises `ValueError`, so no `miss_visit_rate`
column and no data-quality index (line 228) is ever stored. (In the full
program the statement is unreachable anyway: line 176 raised, so the
`site_flags` name copied at line 223 never exists.) -/
def dqJoinStep (rows : List R2) : Except PipeErr NamedSeries :=
  joinSeries (missVisitSeries rows)

/-! ## Concrete instances used by counterexamples and witnesses -/

/-- The spec's end-to-end Sites report: one schedule row
(Site A, Subject 1, Visit 1, "Baseline", scheduled 2024-01-01). -/
def exSitesT : Table :=
  { cols := ["Site Name", "Subject Number", "Visit Name", "Assessment Name",
             "Assessment ID", "Assessment Date", "Assessment Status",
             "Assessment Status Date", "Task 1 Date",
             "Action Required - Date Raised", "Action Resolved Date"]
    rows := [[Cell.str "Site A", Cell.str "S1", Cell.str "Visit 1", Cell.str "Baseline",
              Cell.str "ID1", Cell.str "2024-01-01", Cell.missing, Cell.missing,
              Cell.missing, Cell.missing, Cell.missing]] }

/-- The spec's end-to-end Asset report: one matching upload with procedure
date 2024-01-01 and upload date 2024-01-09 (delay 8). -/
def exAssetsT : Table :=
  { cols := ["Library/Site Name", "Subject Number", "Study Event",
             "Study Procedure", "Study Procedure Date", "Upload Date"]
    rows := [[Cell.str "Site A", Cell.str "S1", Cell.str "Visit 1", Cell.str "Baseline",
              Cell.str "2024-01-01", Cell.str "2024-01-09"]] }

/-- A Forms report exposing a review-comment column, with no rows. -/
def exFormsT : Table :=
  { cols := ["Study Procedure ID", "Date Created", "Submitted Date", "Review Comment"]
    rows := [] }

/-- A Forms report exposing a review-comment column, with one submission for
assessment ID1 on 2024-01-20. -/
def exFormsRowT : Table :=
  { cols := ["Study Procedure ID", "Date Created", "Submitted Date", "Review Comment"]
    rows := [[Cell.str "ID1", Cell.missing, Cell.str "2024-01-20", Cell.str "ok"]] }

/-- A Forms report that does NOT expose a review-comment column. -/
def exFormsNoRevT : Table :=
  { cols := ["Study Procedure ID", "Date Created", "Submitted Date"]
    rows := [] }

/-- A Forms report lacking any assessment-id column. -/
def exFormsNoIdT : Table :=
  { cols := ["Submitted Date", "Comment Text"], rows := [] }

/-- A Forms report lacking any submitted-date column. -/
def exFormsNoSubT : Table :=
  { cols := ["Study Procedure ID", "Comment Text"], rows := [] }

/-! ## Lemmas about the column resolver -/

theorem upsert_of_not_mem (m : List (String × String)) (k v : String) :
    k ∉ m.map Prod.fst → upsert m k v = m ++ [(k, v)] := by
  induction m with
  | nil => intro _; rfl
  | cons p rest ih =>
    intro h
    obtain ⟨k0, v0⟩ := p
    simp only [List.map_cons, List.mem_cons, not_or] at h
    have hne : ¬(k0 = k) := fun hk => h.1 hk.symm
    simp only [upsert, if_neg hne, List.cons_append, List.cons.injEq, true_and]
    exact ih h.2

theorem normMap_foldl (cols : List String) :
    ∀ m : List (String × String),
      (m.map Prod.fst ++ cols.map normalize).Nodup →
      cols.foldl (fun m c => upsert m (normalize c) c) m =
        m ++ cols.map (fun c => (normalize c, c)) := by
  induction cols with
  | nil => intro m _; simp
  | cons c cs ih =>
    intro m h
    simp only [List.map_cons] at h
    have hnotmem : normalize c ∉ m.map Prod.fst := by
      intro hmem
      rw [List.nodup_append] at h
      exact h.2.2 hmem (by simp)
    simp only [List.foldl_cons]
    rw [upsert_of_not_mem m (normalize c) c hnotmem]
    have h2 : ((m ++ [(normalize c, c)]).map Prod.fst ++ cs.map normalize).Nodup := by
      simp only [List.map_append, List.map_cons, List.map_nil, List.append_assoc,
        List.singleton_append]
      exact h
    rw [ih (m ++ [(normalize c, c)]) h2]
    simp

theorem normMap_eq_map (cols : List String) (h : (cols.map normalize).Nodup) :
    normMap cols = cols.map (fun c => (normalize c, c)) := by
  have h0 : (([] : List (String × String)).map Prod.fst ++ cols.map normalize).Nodup := by
    simpa using h
  simpa [normMap] using normMap_foldl cols [] h0

theorem lookupNm_map (cols : List String) (k : String) :
    lookupNm (cols.map (fun c => (normalize c, c))) k =
      cols.find? (fun c => decide (normalize c = k)) := by
  induction cols with
  | nil => rfl
  | cons c cs ih =>
    simp only [lookupNm, List.map_cons] at ih ⊢
    by_cases h : normalize c = k
    · rw [List.find?_cons_of_pos _ (by simp [h]), List.find?_cons_of_pos _ (by simp [h])]
      simp
    · rw [List.find?_cons_of_neg _ (by simp [h]), List.find?_cons_of_neg _ (by simp [h])]
      exact ih

theorem exactPass_map (cols : List String) (cands : List String) :
    exactPass (cols.map (fun c => (normalize c, c))) cands = specExact cols cands := by
  induction cands with
  | nil => rfl
  | cons cand rest ih =>
    simp only [exactPass, specExact, lookupNm_map]
    cases cols.find? (fun c => decide (normalize c = normalize cand)) with
    | none => exact ih
    | some c => rfl

theorem find?_map_pair (cols : List String) (p : String → Bool) :
    (cols.map (fun c => (normalize c, c))).find? (fun q => p q.1) =
      (cols.find? (fun c => p (normalize c))).map (fun c => (normalize c, c)) := by
  rw [List.find?_map]
  rfl

theorem subPass_map (cols : List String) (cands : List String) :
    subPass (cols.map (fun c => (normalize c, c))) cands = specSub cols cands := by
  induction cands with
  | nil => rfl
  | cons cand rest ih =>
    simp only [subPass, specSub,
      find?_map_pair cols (fun nm => listContains (normalize cand).data nm.data)]
    cases cols.find? (fun c => listContains (normalize cand).data (normalize c).data) with
    | none => exact ih
    | some c => rfl

theorem col_eq_specCol (cols cands : List String) (h : (cols.map normalize).Nodup) :
    col cols cands = specCol cols cands := by
  simp only [col, specCol, normMap_eq_map cols h, exactPass_map, subPass_map]

/-! ## Lemmas about deduplication and the joins -/

theorem firstDedup_foldl_nodup {α : Type} [DecidableEq α] (l : List α) :
    ∀ acc : List α, acc.Nodup →
      (l.foldl (fun acc a => if a ∈ acc then acc else acc ++ [a]) acc).Nodup := by
  induction l with
  | nil => intro acc h; exact h
  | cons a t ih =>
    intro acc h
    simp only [List.foldl_cons]
    by_cases hmem : a ∈ acc
    · rw [if_pos hmem]; exact ih acc h
    · rw [if_neg hmem]
      refine ih _ ?_
      rw [List.nodup_append]
      exact ⟨h, List.nodup_singleton a, by
        intro x hx hxa
        rw [List.mem_singleton] at hxa
        exact hmem (hxa ▸ hx)⟩

theorem firstDedup_nodup {α : Type} [DecidableEq α] (l : List α) :
    (firstDedup l).Nodup :=
  firstDedup_foldl_nodup l [] List.nodup_nil

theorem assetAgg_keys_nodup (arows : List ARow) :
    ((assetAgg arows).map (fun g => g.key)).Nodup := by
  unfold assetAgg
  rw [List.map_map]
  dsimp only [Function.comp_def]
  rw [List.map_id']
  exact firstDedup_nodup _

theorem filter_key_length_le_one (agg : List AggRow) (k : Cell × Cell × Cell × Cell)
    (h : (agg.map (fun g => g.key)).Nodup) :
    (agg.filter (fun g => decide (g.key = k))).length ≤ 1 := by
  induction agg with
  | nil => simp
  | cons g t ih =>
    simp only [List.map_cons, List.nodup_cons] at h
    by_cases hk : g.key = k
    · rw [List.filter_cons_of_pos (by simp [hk])]
      have ht : t.filter (fun g => decide (g.key = k)) = [] := by
        rw [List.filter_eq_nil_iff]
        intro x hx
        simp only [decide_eq_true_eq]
        intro hxk
        have hgx : g.key = x.key := by rw [hk, hxk]
        exact h.1 (hgx ▸ List.mem_map_of_mem (fun g => g.key) hx)
      simp [ht]
    · rw [List.filter_cons_of_neg (by simp [hk])]
      exact ih h.2

theorem joinAssetsOne_length (agg : List AggRow) (s : SRow)
    (h : (agg.map (fun g => g.key)).Nodup) :
    (joinAssetsOne agg s).length = 1 := by
  have hle := filter_key_length_le_one agg (s.site, s.subj, s.visit, s.assess) h
  unfold joinAssetsOne
  cases hf : agg.filter (fun g => decide (g.key = (s.site, s.subj, s.visit, s.assess))) with
  | nil => rfl
  | cons g t =>
    rw [hf] at hle
    have ht : t = [] := by
      cases t with
      | nil => rfl
      | cons g2 t2 => simp at hle
    subst ht
    rfl

/-! ## Counting lemmas (for the adherence metric) -/

theorem countP_le_of_imp {α : Type} (l : List α) (p q : α → Bool)
    (h : ∀ x ∈ l, p x = true → q x = true) : l.countP p ≤ l.countP q := by
  induction l with
  | nil => simp
  | cons a t ih =>
    have ht : t.countP p ≤ t.countP q :=
      ih (fun x hx => h x (List.mem_cons_of_mem a hx))
    by_cases hp : p a = true
    · rw [List.countP_cons_of_pos _ _ hp, List.countP_cons_of_pos _ _ (h a (by simp) hp)]
      omega
    · rw [List.countP_cons_of_neg _ _ (by simp [hp])]
      by_cases hq : q a = true
      · rw [List.countP_cons_of_pos _ _ hq]; omega
      · rw [List.countP_cons_of_neg _ _ (by simp [hq])]; exact ht

theorem countP_lt_of_mem_neg {α : Type} (l : List α) (p q : α → Bool) (v : α)
    (hv : v ∈ l) (himp : ∀ x ∈ l, p x = true → q x = true)
    (hpv : p v = false) (hqv : q v = true) : l.countP p < l.countP q := by
  obtain ⟨l1, l2, rfl⟩ := List.append_of_mem hv
  rw [List.countP_append, List.countP_append,
    List.countP_cons_of_neg _ _ (by simp [hpv]),
    List.countP_cons_of_pos _ _ hqv]
  have h1 : l1.countP p ≤ l1.countP q :=
    countP_le_of_imp l1 p q (fun x hx => himp x (by simp [hx]))
  have h2 : l2.countP p ≤ l2.countP q :=
    countP_le_of_imp l2 p q (fun x hx => himp x (by simp [hx]))
  omega

/-! ## Lemmas about the temporal normalizer -/

theorem coerceCell_idem (x : Cell) : coerceCell (coerceCell x) = coerceCell x := by
  cases x with
  | str s =>
    simp only [coerceCell]
    cases parseDate s <;> simp [coerceCell]
  | date d => rfl
  | missing => rfl

theorem coerceRow_getElem? (cols : List String) (c : String) (r : List Cell) :
    ∀ j : Nat, (coerceRow cols c r)[j]? =
      (r[j]?).map (fun x => if cols[j]? = some c then coerceCell x else x) := by
  induction r generalizing cols with
  | nil =>
    intro j
    cases cols <;> simp [coerceRow]
  | cons x xs ih =>
    intro j
    cases cols with
    | nil =>
      cases j with
      | zero => simp [coerceRow]
      | succ j => simp [coerceRow]
    | cons c0 cs =>
      cases j with
      | zero => simp [coerceRow]
      | succ j => simpa [coerceRow] using ih cs j

theorem coerceStep_cols (t : Table) (oc : Option String) :
    (coerceStep t oc).cols = t.cols := by
  cases oc with
  | none => rfl
  | some c =>
    simp only [coerceStep]
    by_cases h : c ∈ t.cols
    · rw [if_pos h]
    · rw [if_neg h]

theorem coerceStep_rows_length (t : Table) (oc : Option String) :
    (coerceStep t oc).rows.length = t.rows.length := by
  cases oc with
  | none => rfl
  | some c =>
    simp only [coerceStep]
    by_cases h : c ∈ t.cols
    · rw [if_pos h]; simp
    · rw [if_neg h]

theorem isDateCol_nil (cols : List String) (j : Nat) : isDateCol cols [] j = false := by
  unfold isDateCol
  cases hc : cols[j]? <;> simp

theorem isDateCol_cons (cols : List String) (oc : Option String)
    (rest : List (Option String)) (j : Nat) :
    isDateCol cols (oc :: rest) j = (isDateCol cols [oc] j || isDateCol cols rest j) := by
  unfold isDateCol
  cases hc : cols[j]? with
  | none => simp
  | some c =>
    by_cases h1 : some c = oc <;> by_cases h2 : some c ∈ rest <;>
      simp [List.mem_cons, List.mem_singleton, h1, h2]

theorem coerceStep_cell (t : Table) (oc : Option String) (i j : Nat) (x : Cell)
    (hx : (t.rows[i]?).bind (fun r => r[j]?) = some x) :
    ((coerceStep t oc).rows[i]?).bind (fun r => r[j]?) =
      some (if isDateCol t.cols [oc] j then coerceCell x else x) := by
  obtain ⟨r, hr, hrj⟩ : ∃ r, t.rows[i]? = some r ∧ r[j]? = some x := by
    cases hri : t.rows[i]? with
    | none => rw [hri] at hx; simp at hx
    | some r =>
      rw [hri] at hx
      exact ⟨r, rfl, by simpa using hx⟩
  cases oc with
  | none =>
    have hfalse : isDateCol t.cols [none] j = false := by
      unfold isDateCol
      cases hc : t.cols[j]? <;> simp
    rw [hfalse]
    simpa using hx
  | some c =>
    by_cases hmem : c ∈ t.cols
    · have hstep : (coerceStep t (some c)).rows = t.rows.map (coerceRow t.cols c) := by
        simp [coerceStep, if_pos hmem]
      have hcond : isDateCol t.cols [some c] j = decide (t.cols[j]? = some c) := by
        unfold isDateCol
        cases hc : t.cols[j]? with
        | none => simp
        | some c0 => simp [List.mem_singleton]
      rw [hstep, List.getElem?_map, hr, hcond]
      simp only [Option.map_some', Option.some_bind]
      rw [coerceRow_getElem? t.cols c r j, hrj]
      by_cases hj : t.cols[j]? = some c
      · simp [hj]
      · simp [hj]
    · have hstep : coerceStep t (some c) = t := by
        simp [coerceStep, if_neg hmem]
      have hfalse : isDateCol t.cols [some c] j = false := by
        unfold isDateCol
        cases hc : t.cols[j]? with
        | none => simp
        | some c0 =>
          have hne : ¬(c0 = c) := fun h0 => hmem (h0 ▸ List.getElem?_mem hc)
          simp [List.mem_singleton, hne]
      rw [hstep, hfalse]
      simpa using hx

theorem coerceTable_spec (t : Table) (dcols : List (Option String)) :
    (coerceTable t dcols).cols = t.cols ∧
    (coerceTable t dcols).rows.length = t.rows.length ∧
    ∀ (i j : Nat) (x : Cell), (t.rows[i]?).bind (fun r => r[j]?) = some x →
      ((coerceTable t dcols).rows[i]?).bind (fun r => r[j]?) =
        some (if isDateCol t.cols dcols j then coerceCell x else x) := by
  induction dcols generalizing t with
  | nil =>
    refine ⟨rfl, rfl, fun i j x hx => ?_⟩
    rw [isDateCol_nil]
    simpa [coerceTable] using hx
  | cons oc rest ih =>
    have hstep : coerceTable t (oc :: rest) = coerceTable (coerceStep t oc) rest := rfl
    obtain ⟨ihc, ihl, ihcell⟩ := ih (coerceStep t oc)
    refine ⟨by rw [hstep, ihc, coerceStep_cols], by rw [hstep, ihl, coerceStep_rows_length],
      fun i j x hx => ?_⟩
    have h1 := coerceStep_cell t oc i j x hx
    have h2 := ihcell i j _ h1
    rw [coerceStep_cols] at h2
    rw [hstep, h2, isDateCol_cons t.cols oc rest j]
    by_cases b1 : isDateCol t.cols [oc] j
    · by_cases b2 : isDateCol t.cols rest j
      · simp [b1, b2, coerceCell_idem]
      · simp [b1, b2]
    · by_cases b2 : isDateCol t.cols rest j
      · simp [b1, b2]
      · simp [b1, b2]

/-! ## Further helpers for the claim theorems -/

theorem except_eq_error_of_getErr {α : Type} (e : Except PipeErr α) (err : PipeErr)
    (h : getErr e = some err) : e = Except.error err := by
  cases e with
  | ok a => simp [getErr] at h
  | error e0 =>
    simp only [getErr, Option.some.injEq] at h
    rw [h]

theorem vwJoinOne_no_match (base : List (Cell × Cell × Cell)) (r : R2)
    (h : ∀ b ∈ base, ¬(b.1 = r.site ∧ b.2.1 = r.subj)) :
    vwJoinOne base r = [{ toR2 := r, baselineDate := Cell.missing }] := by
  unfold vwJoinOne
  have hf : base.filter (fun b => decide (b.1 = r.site) && decide (b.2.1 = r.subj)) = [] := by
    rw [List.filter_eq_nil_iff]
    intro b hb
    simp only [Bool.and_eq_true, decide_eq_true_eq, not_and]
    exact fun h1 h2 => h b hb ⟨h1, h2⟩
  rw [hf]

/-! ## Claim theorems -/

/-- C6: the source resolver tries an exact pass over candidates in order and
only then a substring pass; on tables whose columns have pairwise distinct
normalized names it returns exactly the column the spec describes (first
matching column, candidates in order), and on the spec's concrete example it
returns "Assessment Date" for either column order. The claim's universally
quantified "first column" reading fails only when two columns share a
normalized name (see the counterexample), so it is restricted to tables with
distinct normalized column names. -/
theorem c6_resolver_amended :
    (∀ cols cands : List String, (cols.map normalize).Nodup →
      col cols cands = specCol cols cands) ∧
    col ["Study Procedure Date", "Assessment Date"]
        ["Assessment Date", "Study Procedure Date"] = some "Assessment Date" ∧
    col ["Assessment Date", "Study Procedure Date"]
        ["Assessment Date", "Study Procedure Date"] = some "Assessment Date" :=
  ⟨fun cols cands h => col_eq_specCol cols cands h, by decide, by decide⟩

theorem c6_resolver_witness :
    col ["Study Procedure Date", "Assessment Date"]
        ["Assessment Date", "Study Procedure Date"] =
      specCol ["Study Procedure Date", "Assessment Date"]
        ["Assessment Date", "Study Procedure Date"] :=
  c6_resolver_amended.1 ["Study Procedure Date", "Assessment Date"]
    ["Assessment Date", "Study Procedure Date"] (by decide)

/-- C6 counterexample: with two columns sharing the normalized name
"site name", the source dict comprehension keeps the LAST column, while the
claim says the resolver returns the FIRST column whose normalized name
matches; the two resolvers disagree. -/
theorem c6_resolver_cex :
    col ["Site  Name", "Site Name"] ["Site Name"] = some "Site Name" ∧
    specCol ["Site  Name", "Site Name"] ["Site Name"] = some "Site  Name" ∧
    col ["Site  Name", "Site Name"] ["Site Name"] ≠
      specCol ["Site  Name", "Site Name"] ["Site Name"] := by decide

/-- C8: a schedule row with no matching aggregated asset group receives
`max_upload_delay = 0` and `first_upload = missing` from the left merge. -/
theorem c8_unmatched_default (arows : List ARow) (s : SRow)
    (h : ∀ g ∈ assetAgg arows, g.key ≠ (s.site, s.subj, s.visit, s.assess)) :
    joinAssetsOne (assetAgg arows) s =
      [{ toSRow := s, firstUpload := none, maxUploadDelay := 0 }] := by
  unfold joinAssetsOne
  have hf : (assetAgg arows).filter
      (fun g => decide (g.key = (s.site, s.subj, s.visit, s.assess))) = [] := by
    rw [List.filter_eq_nil_iff]
    intro g hg
    simpa using h g hg
  rw [hf]

/-- A schedule row used by witnesses: Site B has no asset at all. -/
def exS8 : SRow :=
  { site := Cell.str "Site B", subj := Cell.str "S2", visit := Cell.str "Visit 2",
    assess := Cell.str "Week 4", assessId := Cell.str "ID9",
    schedDate := Cell.date 739220, statusDate := Cell.missing, taskDates := [],
    actRaised := Cell.missing, actResolved := Cell.missing }

theorem c8_unmatched_default_witness :
    joinAssetsOne (assetAgg []) exS8 =
      [{ toSRow := exS8, firstUpload := none, maxUploadDelay := 0 }] :=
  c8_unmatched_default [] exS8 (by decide)

/-- C10: the asset aggregation has pairwise distinct 4-tuple keys, so the
asset left merge yields exactly one reconciled row per schedule row. -/
theorem c10_agg_join_preserves_length (sched : List SRow) (arows : List ARow) :
    ((assetAgg arows).map (fun g => g.key)).Nodup ∧
    (joinAssets sched (assetAgg arows)).length = sched.length := by
  refine ⟨assetAgg_keys_nodup arows, ?_⟩
  induction sched with
  | nil => rfl
  | cons s t ih =>
    unfold joinAssets at ih ⊢
    rw [List.flatMap_cons, List.length_append, ih,
      joinAssetsOne_length _ _ (assetAgg_keys_nodup arows)]
    simp only [List.length_cons]
    omega

/-- C7 (amended): a non-empty validation report halts the pipeline with the
consolidated report and nothing else; the report has an entry for each table
with unresolved required fields, holding one `None` placeholder per
unresolved field (so the count, but not the identity, of the unresolved
fields — see the counterexample). -/
theorem c7_validation_amended (sites assets forms : Table)
    (h : errsOf (resolveAll sites assets forms) ≠ []) :
    runPipeline sites assets forms =
      Except.error (PipeErr.schema (errsOf (resolveAll sites assets forms))) ∧
    ∀ p ∈ errsOf (resolveAll sites assets forms), p.2 ≠ [] ∧ ∀ o ∈ p.2, o = none := by
  constructor
  · unfold runPipeline
    rw [if_neg h]
  · intro p hp
    unfold errsOf at hp
    rw [List.mem_filterMap] at hp
    obtain ⟨q, _, hq⟩ := hp
    by_cases hm : q.2.filter (fun o => o.isNone) = []
    · rw [if_pos hm] at hq
      exact absurd hq (by simp)
    · rw [if_neg hm, Option.some.injEq] at hq
      subst hq
      refine ⟨hm, fun o ho => ?_⟩
      have := (List.mem_filter.mp ho).2
      simpa [Option.isNone_iff_eq_none] using this

/-- A Sites report with no resolvable site-name column. -/
def exSitesBadT : Table :=
  { cols := ["Subject Number", "Visit Name", "Assessment Name",
             "Assessment ID", "Assessment Date"]
    rows := [] }

theorem c7_validation_witness :
    runPipeline exSitesBadT exAssetsT exFormsT =
      Except.error (PipeErr.schema (errsOf (resolveAll exSitesBadT exAssetsT exFormsT))) ∧
    ∀ p ∈ errsOf (resolveAll exSitesBadT exAssetsT exFormsT),
      p.2 ≠ [] ∧ ∀ o ∈ p.2, o = none :=
  c7_validation_amended exSitesBadT exAssetsT exFormsT (by decide)

/-- C7 counterexample: two Forms reports with different unresolved required
fields produce the SAME validation report (a list of `None` placeholders),
so the surfaced report does not enumerate which field of the table is
unresolved, while the spec's report (by field name) distinguishes them. -/
theorem c7_validation_cex :
    errsOf (resolveAll exSitesT exAssetsT exFormsNoIdT) =
      errsOf (resolveAll exSitesT exAssetsT exFormsNoSubT) ∧
    specReport exSitesT exAssetsT exFormsNoIdT = [("Forms", ["Study Procedure ID"])] ∧
    specReport exSitesT exAssetsT exFormsNoSubT = [("Forms", ["Submitted Date"])] ∧
    specReport exSitesT exAssetsT exFormsNoIdT ≠
      specReport exSitesT exAssetsT exFormsNoSubT := by decide

/-- C9: date coercion is total and cell-wise. The coercion loop preserves the
table's shape; a designated cell becomes `coerceCell` of its old value and
any other cell is untouched, where `coerceCell` maps an unparseable string
to the missing marker, a parseable one to its timestamp, and missing to
missing — no input raises an error or aborts the run. -/
theorem c9_coercion_total (t : Table) (dcols : List (Option String)) :
    (coerceTable t dcols).cols = t.cols ∧
    (coerceTable t dcols).rows.length = t.rows.length ∧
    (∀ s : String, parseDate s = none → coerceCell (Cell.str s) = Cell.missing) ∧
    (∀ (s : String) (d : Int), parseDate s = some d → coerceCell (Cell.str s) = Cell.date d) ∧
    coerceCell Cell.missing = Cell.missing ∧
    (∀ (i j : Nat) (x : Cell), (t.rows[i]?).bind (fun r => r[j]?) = some x →
      ((coerceTable t dcols).rows[i]?).bind (fun r => r[j]?) =
        some (if isDateCol t.cols dcols j then coerceCell x else x)) := by
  obtain ⟨h1, h2, h3⟩ := coerceTable_spec t dcols
  refine ⟨h1, h2, fun s hs => ?_, fun s d hd => ?_, rfl, h3⟩
  · simp [coerceCell, hs]
  · simp [coerceCell, hd]

theorem c9_coercion_total_witness :
    ((coerceTable exSitesT (sitesDateCols (resolveAll exSitesT exAssetsT exFormsT))).rows[0]?).bind
        (fun r => r[5]?) =
      some (if isDateCol exSitesT.cols (sitesDateCols (resolveAll exSitesT exAssetsT exFormsT)) 5
        then coerceCell (Cell.str "2024-01-01") else Cell.str "2024-01-01") :=
  (c9_coercion_total exSitesT
    (sitesDateCols (resolveAll exSitesT exAssetsT exFormsT))).2.2.2.2.2 0 5
    (Cell.str "2024-01-01") (by decide)

/-- C2 (amended): a row whose assessment name is absent from the offset table
is looked up with the defaults offset 0 and tolerance 0, so it is within
window iff its days-from-baseline is exactly 0; in every other case —
including every row with a defined nonzero `days_since_base` — it is flagged
out-of-window, not skipped. -/
theorem c2_unknown_visit_amended (v : VRow)
    (h : ∀ p ∈ offsets, Cell.str p.1 ≠ v.assess) :
    withinWindow v = true ↔ daysSinceBase v = some 0 := by
  have hoff : offGet v.assess = 0 := by
    cases hv : v.assess with
    | str a =>
      have hfind : offsets.find? (fun p => decide (p.1 = a)) = none := by
        rw [List.find?_eq_none]
        intro p hp
        simp only [decide_eq_true_eq]
        intro hpa
        exact h p hp (by rw [hpa, hv])
      simp [offGet, hfind]
    | date d => rfl
    | missing => rfl
  have htol : tolGet v.assess = 0 := by
    cases hv : v.assess with
    | str a =>
      have hfind : toleranceTbl.find? (fun p => decide (p.1 = a)) = none := by
        rw [List.find?_eq_none]
        intro q hq
        simp only [decide_eq_true_eq]
        intro hqa
        obtain ⟨p, hp, hpq⟩ := List.mem_map.mp hq
        exact h p hp (by rw [← hpq] at hqa; rw [hqa, hv])
      simp [tolGet, hfind]
    | date d => rfl
    | missing => rfl
  unfold withinWindow
  cases hd : daysSinceBase v with
  | none => simp
  | some d =>
    rw [hoff, htol]
    simp only [Option.some.injEq, decide_eq_true_eq, sub_zero]
    constructor
    · intro habs
      have : d = 0 := by
        rw [abs_le] at habs
        omega
      rw [this]
    · intro hd0
      rw [hd0]
      simp

/-- A reconciled example row of subject (A, S1) with the given assessment
name, id and scheduled date (no uploads, forms, tasks or actions). -/
def mkExRow (a id d : Cell) : R2 :=
  { site := Cell.str "A", subj := Cell.str "S1", visit := Cell.str "V1",
    assess := a, assessId := id,
    schedDate := d, statusDate := Cell.missing, taskDates := [],
    actRaised := Cell.missing, actResolved := Cell.missing,
    firstUpload := none, maxUploadDelay := 0,
    formSubmitted := Cell.missing, review := Cell.missing }

/-- The subject's Baseline row at day 0. -/
def exBaseRow : R2 := mkExRow (Cell.str "Baseline") (Cell.str "I1") (Cell.date 0)

/-- The "Week 8" row (a visit type absent from the offset table) of the same
subject, 10 days later. -/
def exWeek8Row : R2 := mkExRow (Cell.str "Week 8") (Cell.str "I2") (Cell.date 10)

/-- The visit-window example table. -/
def exVwRows : List R2 := [exBaseRow, exWeek8Row]

/-- The Week 8 row as merged with its baseline. -/
def exW8V : VRow := { toR2 := exWeek8Row, baselineDate := Cell.date 0 }

theorem c2_unknown_visit_witness :
    withinWindow exW8V = true ↔ daysSinceBase exW8V = some 0 :=
  c2_unknown_visit_amended exW8V (by decide)

/-- C2 counterexample: the "Week 8" visit type is absent from the offset
table, its row has days-from-baseline 10, and the computation flags it
out-of-window (`within_window = false`, counted in the adherence totals with
zero on-time); the claim says such a row is never flagged. -/
theorem c2_unknown_visit_cex :
    (∀ p ∈ offsets, p.1 ≠ "Week 8") ∧
    (vw exVwRows).map (fun v => (v.assess, daysSinceBase v, withinWindow v)) =
      [(Cell.str "Baseline", some 0, true), (Cell.str "Week 8", some 10, false)] ∧
    adherence exVwRows = [(Cell.str "Baseline", 1, 1), (Cell.str "Week 8", 1, 0)] := by
  decide

/-- C3 (amended): a row of a subject with no Baseline row gets an undefined
`days_since_base` and `within_window = false`: it is counted in its visit
type's adherence total while never counting as on-time (so it lowers the
percentage rather than being excluded). -/
theorem c3_no_baseline_amended (rows : List R2) (v : VRow) (hv : v ∈ vw rows)
    (hnb : ∀ r ∈ rows, ¬(r.assess = Cell.str "Baseline" ∧
      r.site = v.site ∧ r.subj = v.subj)) :
    daysSinceBase v = none ∧ withinWindow v = false ∧
    (vw rows).countP (fun u => decide (u.assess = v.assess) && withinWindow u) <
      (vw rows).countP (fun u => decide (u.assess = v.assess)) ∧
    ∀ t o, (v.assess, t, o) ∈ adherence rows → o < t := by
  unfold vw at hv
  obtain ⟨r, hr, hvr⟩ := List.mem_flatMap.mp hv
  have hmatch : ∀ b ∈ baselineRows rows, ¬(b.1 = r.site ∧ b.2.1 = r.subj) := by
    intro b hb hcontra
    obtain ⟨r0, hr0, hb_eq⟩ := List.mem_map.mp hb
    rw [List.mem_filter] at hr0
    have hassess : r0.assess = Cell.str "Baseline" := by
      simpa using hr0.2
    have hvsite : v.site = r.site ∧ v.subj = r.subj := by
      unfold vwJoinOne at hvr
      cases hf : (baselineRows rows).filter
          (fun b => decide (b.1 = r.site) && decide (b.2.1 = r.subj)) with
      | nil =>
        rw [hf] at hvr
        rw [List.mem_singleton] at hvr
        rw [hvr]
        exact ⟨rfl, rfl⟩
      | cons b0 ms =>
        rw [hf] at hvr
        obtain ⟨b1, _, hb1⟩ := List.mem_map.mp hvr
        rw [← hb1]
        exact ⟨rfl, rfl⟩
    refine hnb r0 hr0.1 ⟨hassess, ?_, ?_⟩
    · rw [hvsite.1, ← hcontra.1, ← hb_eq]
    · rw [hvsite.2, ← hcontra.2, ← hb_eq]
  rw [vwJoinOne_no_match (baselineRows rows) r hmatch, List.mem_singleton] at hvr
  have hdays : daysSinceBase v = none := by
    rw [hvr]
    unfold daysSinceBase
    cases hc : cellDate ({ toR2 := r, baselineDate := Cell.missing } : VRow).schedDate <;>
      simp [cellDate]
  have hwin : withinWindow v = false := by
    unfold withinWindow
    rw [hdays]
  have hcount : (vw rows).countP (fun u => decide (u.assess = v.assess) && withinWindow u) <
      (vw rows).countP (fun u => decide (u.assess = v.assess)) := by
    refine countP_lt_of_mem_neg (vw rows) _ _ v hv ?_ ?_ ?_
    · intro x _ hx
      rw [Bool.and_eq_true] at hx
      exact hx.1
    · rw [hwin, Bool.and_false]
    · simp
  refine ⟨hdays, hwin, hcount, fun t o hmem => ?_⟩
  unfold adherence at hmem
  obtain ⟨a, _, ha⟩ := List.mem_map.mp hmem
  rw [Prod.mk.injEq, Prod.mk.injEq] at ha
  rw [← ha.2.1, ← ha.2.2, ha.1]
  exact hcount

/-- The subject with only a "Week 4" row and no Baseline row. -/
def exWeek4Row : R2 := mkExRow (Cell.str "Week 4") (Cell.str "I3") (Cell.date 30)

/-- The no-baseline example table. -/
def exNoBaseRows : List R2 := [exWeek4Row]

/-- The Week 4 row after the (empty) baseline merge. -/
def exW4V : VRow := { toR2 := exWeek4Row, baselineDate := Cell.missing }

theorem c3_no_baseline_witness :
    daysSinceBase exW4V = none ∧ withinWindow exW4V = false ∧
    (vw exNoBaseRows).countP
        (fun u => decide (u.assess = exW4V.assess) && withinWindow u) <
      (vw exNoBaseRows).countP (fun u => decide (u.assess = exW4V.assess)) ∧
    ∀ t o, (exW4V.assess, t, o) ∈ adherence exNoBaseRows → o < t :=
  c3_no_baseline_amended exNoBaseRows exW4V (by decide) (by decide)

/-- C3 counterexample: the baseline-less subject's "Week 4" row is counted in
the adherence total for "Week 4" (total 1) and counts as not on-time
(on-time 0), while the claim says such rows are neither counted nor
flagged. -/
theorem c3_no_baseline_cex :
    (∀ r ∈ exNoBaseRows, r.assess ≠ Cell.str "Baseline") ∧
    (vw exNoBaseRows).map (fun v => (daysSinceBase v, withinWindow v)) = [(none, false)] ∧
    adherence exNoBaseRows = [(Cell.str "Week 4", 1, 0)] := by decide

/-- The reconciled row the end-to-end example produces: the Site A Baseline
assessment with its asset upload 8 days after the procedure. -/
def exRowA : R2 :=
  { site := Cell.str "Site A", subj := Cell.str "S1", visit := Cell.str "Visit 1",
    assess := Cell.str "Baseline", assessId := Cell.str "ID1",
    schedDate := Cell.date 739191, statusDate := Cell.missing,
    taskDates := [Cell.missing], actRaised := Cell.missing, actResolved := Cell.missing,
    firstUpload := some 739199, maxUploadDelay := 8,
    formSubmitted := Cell.missing, review := Cell.missing }

/-- C1 (amended): on the end-to-end example `late_assets` is 1 (the single
Site A row reconciles with upload delay 8, late under threshold 5), but no
per-category late rate and no `risk_score` is ever produced for any site:
a tuple has no attribute `sum`, so evaluating the keyword arguments of the
`site_flags` aggregation (lines 176-182, the `action_rate` argument's
misplaced parenthesis) raises AttributeError before any aggregation runs,
on every run that reaches the statement. -/
theorem c1_risk_score_amended :
    "sum" ∉ tupleAttrs ∧
    siteFlagsAgg = Except.error PipeErr.attrError ∧
    (getOk (runPipeline exSitesT exAssetsT exFormsT)).map
        (fun rows => (rows.map (fun r => r.maxUploadDelay), lateAssets rows)) =
      some ([8], 1) := by
  refine ⟨by decide, rfl, by decide⟩

/-- C1 counterexample: on the spec's end-to-end input the pipeline
reconciles to exactly one Site A row with upload delay 8, and `late_assets`
is 1 as the claim states; but the claim's `risk_score = 100` is false of
the program, which computes no risk score at all there: the `site_flags`
statement never succeeds — it raises AttributeError. -/
theorem c1_risk_score_cex :
    getOk (runPipeline exSitesT exAssetsT exFormsT) = some [exRowA] ∧
    lateAssets [exRowA] = 1 ∧
    siteFlagsAgg ≠ Except.ok () ∧
    getErr siteFlagsAgg = some PipeErr.attrError := by
  refine ⟨by decide, by decide, ?_, rfl⟩
  intro h
  exact Except.noConfusion h

/-- C4 (amended): no `miss_visit_rate` and no data-quality index is ever
stored: the Series built at line 225 loses its name in the division (the
operand names "miss_visit_count" and "total_assessments" differ, so pandas
drops the name), and joining the nameless Series at line 226 raises
ValueError — and the statement is unreachable anyway, because the
`site_flags` aggregation at line 176 already raised AttributeError, so the
name copied at line 223 never exists. -/
theorem c4_missing_rate_amended (rows : List R2) :
    (missVisitSeries rows).name = none ∧
    dqJoinStep rows = Except.error PipeErr.valueError ∧
    siteFlagsAgg = Except.error PipeErr.attrError := by
  have hname : (missVisitSeries rows).name = none := rfl
  refine ⟨hname, ?_, rfl⟩
  unfold dqJoinStep joinSeries
  rw [hname]

/-- Site A with one (site, subject, visit) group of two rows carrying two
distinct assessment ids: 1 group (below the expected 6 rows), 2 distinct
ids. -/
def exC4Rows : List R2 := [exBaseRow, exWeek4Row]

/-- C4 counterexample: at Site A of the concrete table (one (site, subject,
visit) group of two rows, below the expected six) the claim's
missing_visit_rate is 1/1 = 1, but the program stores no rate at all — the
divided Series is nameless, so the join of line 226 raises ValueError and
no data_quality_index is computed either. -/
theorem c4_missing_rate_cex :
    missVisitCount exC4Rows (Cell.str "A") = 1 ∧
    (mvGroups exC4Rows).countP (fun p => decide (p.1.1 = Cell.str "A")) = 1 ∧
    specMissingVisitRate exC4Rows (Cell.str "A") = 1 ∧
    (missVisitSeries exC4Rows).name = none ∧
    dqJoinStep exC4Rows = Except.error PipeErr.valueError := by
  have h1 : missVisitCount exC4Rows (Cell.str "A") = 1 := by decide
  have h3 : (mvGroups exC4Rows).countP (fun p => decide (p.1.1 = Cell.str "A")) = 1 := by
    decide
  have hname : (missVisitSeries exC4Rows).name = none := rfl
  refine ⟨h1, h3, ?_, hname, ?_⟩
  · unfold specMissingVisitRate
    rw [h1, h3]
    norm_num
  · unfold dqJoinStep joinSeries
    rw [hname]

/-- C5: the forms merge always brings in `form_submitted` when it runs — on
the example, the submission on 2024-01-20 lands on the reconciled row with a
form delay of 11 days — but the merge indexes the forms table by the
resolved review-comment name unconditionally, so a Forms report that does
not expose such a column (validation passing) raises a KeyError instead of
joining without the comment. -/
theorem c5_forms_join_keyerror :
    errsOf (resolveAll exSitesT exAssetsT exFormsNoRevT) = [] ∧
    runPipeline exSitesT exAssetsT exFormsNoRevT = Except.error PipeErr.keyError ∧
    (getOk (runPipeline exSitesT exAssetsT exFormsRowT)).map
        (fun rows => rows.map (fun r => (cellDate r.formSubmitted, formDelay r))) =
      some [(some 739210, some 11)] := by
  refine ⟨by decide, ?_, by decide⟩
  exact except_eq_error_of_getErr _ _ (by decide)

end TrialDashboard
